import Mathlib

/-!
Verification of the sigma rule compiler backends (qradar.py and uberagent.py)
against their natural-language specification.

The Python sources are shallowly embedded: strings are Lean `String`s (with
character-level helpers on `List Char` replacing Python's `re` operations),
dictionaries are association lists, and raised exceptions become `Except`
errors.  Every definition is translated from the source files; the few pieces
of glue living in the (absent) shared base class are modelled from the spec
and marked as such in their doc comments.
-/

namespace StrAux

/-- The single-quote character (written via its code point). -/
def quoteCh : Char := Char.ofNat 39

/-- The double-quote character (written via its code point). -/
def dquoteCh : Char := Char.ofNat 34

/-- Python `str.lower()` (ASCII case folding, which is all the sources use). -/
def lowerStr (s : String) : String := ⟨s.data.map Char.toLower⟩

/-- Does the character list `l` contain `pat` as a contiguous run?
Embeds Python's `pat in l` substring test. -/
def hasSub : List Char → List Char → Bool
  | pat, [] => pat.isEmpty
  | pat, c :: cs => pat.isPrefixOf (c :: cs) || hasSub pat cs

/-- Python `pat in s` on strings. -/
def strHasSub (pat s : String) : Bool := hasSub pat.data s.data

/-- Python `c in s` for a single character. -/
def strHasChar (s : String) (c : Char) : Bool := s.data.contains c

/-- Python `sep.join(xs)`. -/
def joinSep (sep : String) : List String → String
  | [] => ""
  | [x] => x
  | x :: y :: ys => x ++ sep ++ joinSep sep (y :: ys)

/-- Python `int(s)` on a non-negative digit string; `none` models the
`ValueError` raised on anything else. -/
def parseNat (l : List Char) : Option Nat :=
  if l.isEmpty then none
  else if l.all (fun c => c.isDigit) then
    some (l.foldl (fun a c => a * 10 + (c.toNat - 48)) 0)
  else none

end StrAux

namespace QRadarBackend

/-- A scalar entry of a sigma map value: Python `str`, `int` or `None`. -/
inductive Item where
  | str (s : String)
  | int (n : Int)
  | null
deriving DecidableEq

/-- `QRadarBackend.cleanKey`: `None` becomes `""`, keys containing a space are
wrapped in double quotes. -/
def cleanKey (key : Option String) : String :=
  match key with
  | none => ""
  | some k =>
    if StrAux.strHasChar k ' ' then String.singleton StrAux.dquoteCh ++ k ++ String.singleton StrAux.dquoteCh
    else k

/-- `QRadarBackend.cleanValue`: `value.replace("'", "\\'")`. -/
def cleanValue (value : String) : String :=
  ⟨value.data.foldr (fun c acc => if c = StrAux.quoteCh then '\\' :: StrAux.quoteCh :: acc else c :: acc) []⟩

/-- Python `value.replace("*", "%")` as used on qradar map item values. -/
def starToPercent (s : String) : String :=
  ⟨s.data.map (fun c => if c = '*' then '%' else c)⟩

/-- Python `str(node)` for the scalar node shapes the backend feeds to
`generateValueNode` (`None` is never passed there by the source). -/
def itemToStr : Item → String
  | Item.str s => s
  | Item.int n => toString n
  | Item.null => "None"

/-- `QRadarBackend.generateValueNode` with `keypresent = True`:
`valueExpression = "'%s'"` applied to the cleaned value. -/
def generateValueNode (node : Item) : String :=
  String.singleton StrAux.quoteCh ++ cleanValue (itemToStr node) ++ String.singleton StrAux.quoteCh

/-- One iteration of the item loop in `QRadarBackend.generateMapItemListNode`:
null test first, then the CIDR test (field name containing `ip` and item
containing `/16` or `/24`), then the wildcard test, else equality. -/
def renderListItem (key : String) (item : Item) : String :=
  match item with
  | Item.null => key ++ " is null"
  | Item.str s =>
    if StrAux.strHasSub "ip" key && (StrAux.strHasSub "/16" s || StrAux.strHasSub "/24" s) then
      "INCIDR(" ++ generateValueNode (Item.str s) ++ ", " ++ cleanKey (some key) ++ ")"
    else if StrAux.strHasChar s '*' then
      cleanKey (some key) ++ " ilike " ++ generateValueNode (Item.str (starToPercent s))
    else
      cleanKey (some key) ++ " = " ++ generateValueNode (Item.str s)
  | Item.int n => cleanKey (some key) ++ " = " ++ generateValueNode (Item.int n)

/-- The `for item in value: itemslist.append(...)` loop of
`QRadarBackend.generateMapItemListNode`, in input order. -/
def itemLoop (key : String) : List Item → List String
  | [] => []
  | item :: rest => renderListItem key item :: itemLoop key rest

/-- `QRadarBackend.generateMapItemListNode`: the accumulated per-item clauses
are joined with `" or "` and parenthesized. -/
def generateMapItemListNode (key : String) (value : List Item) : String :=
  "(" ++ StrAux.joinSep " or " (itemLoop key value) ++ ")"

/-- The scalar (`str`/`int`) branch of `QRadarBackend.generateMapItemNode`:
a string containing `*` has every `*` replaced by `%` and is rendered with
`ilike`; otherwise `mapExpression = "%s=%s"` applies. -/
def generateMapItemNodeScalar (key : String) (value : Item) : String :=
  match value with
  | Item.str s =>
    if StrAux.strHasChar s '*' then
      cleanKey (some key) ++ " ilike " ++ generateValueNode (Item.str (starToPercent s))
    else
      cleanKey (some key) ++ "=" ++ generateValueNode (Item.str s)
  | Item.int n => cleanKey (some key) ++ "=" ++ generateValueNode (Item.int n)
  | Item.null => key ++ " is null"

/-- First anchoring statement of `QRadarBackend.generateMapItemTypedNode`:
prepend `.*` unless the pattern starts with `^` or `.*`. -/
def anchorPrepend (regex : List Char) : List Char :=
  if !(['^'].isPrefixOf regex) && !(['.', '*'].isPrefixOf regex) then
    ['.', '*'] ++ regex
  else regex

/-- Second anchoring statement of `QRadarBackend.generateMapItemTypedNode`:
append `.*` unless the (already updated) pattern ends with `$` or `.*`.
`endswith` is embedded as a prefix test on the reversed list. -/
def anchorAppend (r : List Char) : List Char :=
  if !(['$'].isPrefixOf r.reverse) && !(['*', '.'].isPrefixOf r.reverse) then
    r ++ ['.', '*']
  else r

/-- The regex anchoring of `QRadarBackend.generateMapItemTypedNode`: the two
statements applied in source order. -/
def anchorRegexL (regex : List Char) : List Char :=
  anchorAppend (anchorPrepend regex)

/-- `QRadarBackend.generateMapItemTypedNode` for a regex modifier value. -/
def generateMapItemTypedNode (fieldname : String) (regexValue : String) : String :=
  cleanKey (some fieldname) ++ " imatches " ++ generateValueNode (Item.str ⟨anchorRegexL regexValue.data⟩)

/-- Reference rendering of the claim's own anchoring rule (used only to compare
with the source's `anchorRegexL`): prepend `.*` iff the pattern starts with
neither `^` nor `.*`, and append `.*` iff the original pattern ends with
neither `$` nor `.*`. -/
def anchorRegexClaim (regex : List Char) : List Char :=
  (if !(['^'].isPrefixOf regex) && !(['.', '*'].isPrefixOf regex) then ['.', '*'] else [])
    ++ regex ++
  (if !(['$'].isPrefixOf regex.reverse) && !(['*', '.'].isPrefixOf regex.reverse) then ['.', '*'] else [])

/-- `QRadarBackend.generateTimeframe`: the unit is inferred from the trailing
character (`s`/`m`/`h`/`d`, anything else falling back to months) and the
remaining prefix is parsed as the integer duration; `none` models the
`ValueError` of `int()`. -/
def generateTimeframe (timeframe : String) : Option (String × Nat) :=
  let unitName :=
    if timeframe.data.getLast? = some 's' then "seconds"
    else if timeframe.data.getLast? = some 'm' then "minutes"
    else if timeframe.data.getLast? = some 'h' then "hours"
    else if timeframe.data.getLast? = some 'd' then "days"
    else "months"
  (StrAux.parseNat timeframe.data.dropLast).map (fun n => (unitName, n))

/-- The sigma aggregation functions; `near` is the unsupported variant. -/
inductive AggFunc where
  | count | minf | maxf | sum | avg | near
deriving DecidableEq

/-- The parsed aggregation clause fields used by `generateAggregation`. -/
structure Agg where
  aggfunc : AggFunc
  aggfunc_notrans : String
  aggfield : Option String
  groupfield : Option String
  cond_op : String
  condition : String

/-- Errors of `generateAggregation`: the `NotImplementedError` raised for the
`near` operator, and the `ValueError` of `int()` on a bad timeframe string. -/
inductive AggError where
  | nearNotImplemented
  | badTimeframe
deriving DecidableEq

/-- `QRadarBackend.generateAggregation`: `None` yields `""` (encoded `none`);
`near` raises; with no group field the prologue/epilogue use the aggregation
field; with a group field and no timeframe (or the `'00'` default) the
epilogue groups by the group field; otherwise the epilogue additionally ends
with `LAST <duration> <unit>` from `generateTimeframe`. -/
def generateAggregation :
    Option Agg → Option String → Except AggError (Option (String × String))
  | none, _ => Except.ok none
  | some agg, timeframe =>
    if agg.aggfunc = AggFunc.near then Except.error AggError.nearNotImplemented
    else if agg.groupfield = none then
      Except.ok (some
        ("SELECT " ++ agg.aggfunc_notrans ++ "(" ++ cleanKey agg.aggfield ++ ") as agg_val from events where",
         " group by " ++ cleanKey agg.aggfield ++ " having agg_val " ++ agg.cond_op ++ " " ++ agg.condition))
    else if timeframe = some "00" ∨ timeframe = none then
      Except.ok (some
        (" SELECT " ++ agg.aggfunc_notrans ++ "(" ++ cleanKey agg.aggfield ++ ") as agg_val from events where ",
         " group by " ++ cleanKey agg.groupfield ++ " having agg_val " ++ agg.cond_op ++ " " ++ agg.condition))
    else
      match timeframe with
      | some tf =>
        match generateTimeframe tf with
        | some (unitName, duration) =>
          Except.ok (some
            (" SELECT " ++ agg.aggfunc_notrans ++ "(" ++ cleanKey agg.aggfield ++ ") as agg_val from events where ",
             " group by " ++ cleanKey agg.groupfield ++ " having agg_val " ++ agg.cond_op ++ " "
               ++ agg.condition ++ " LAST " ++ toString duration ++ " " ++ unitName))
        | none => Except.error AggError.badTimeframe
      | none => Except.error AggError.badTimeframe

end QRadarBackend

namespace uberAgentBackend

/-- `convert_sigma_level_to_uberagent_risk_score`: dictionary lookup with
default `0`. -/
def convert_sigma_level_to_uberagent_risk_score (level : String) : Nat :=
  ((([("critical", 100), ("high", 75), ("medium", 50), ("low", 25)] :
    List (String × Nat)).lookup level).getD 0)

/-- The dash-collapsing step of `convert_sigma_name_to_uberagent_tag`
(`re.sub(r"-{2,}", "-", tag)`): every run of two or more dashes becomes one. -/
def collapseDashes : List Char → List Char
  | [] => []
  | [c] => [c]
  | a :: b :: rest =>
    if a = '-' ∧ b = '-' then collapseDashes (b :: rest)
    else a :: collapseDashes (b :: rest)

/-- `convert_sigma_name_to_uberagent_tag`: lowercase, spaces to dashes,
collapse dash runs. -/
def convert_sigma_name_to_uberagent_tag (name : String) : String :=
  ⟨collapseDashes ((StrAux.lowerStr name).data.map (fun c => if c = ' ' then '-' else c))⟩

/-- The category table of `convert_sigma_category_to_uberagent_event_type`. -/
def categoriesTable : List (String × String) :=
  [("process_creation", "Process.Start"),
   ("image_load", "Image.Load"),
   ("dns", "Dns.Query"),
   ("dns_query", "Dns.Query"),
   ("network_connection", "Net.Any"),
   ("firewall", "Net.Any"),
   ("create_remote_thread", "Process.CreateRemoteThread"),
   ("registry_event", "Reg.Any"),
   ("registry_add", "Reg.Any"),
   ("registry_delete", "Reg.Any"),
   ("registry_set", "Reg.Any"),
   ("registry_rename", "Reg.Any")]

/-- `convert_sigma_category_to_uberagent_event_type` (the unsupported-category
counter is reporting-only side state and is not part of the returned value). -/
def convert_sigma_category_to_uberagent_event_type (category : String) : Option String :=
  categoriesTable.lookup category

/-- `is_sigma_category_supported`. -/
def is_sigma_category_supported (category : String) : Bool :=
  (convert_sigma_category_to_uberagent_event_type category).isSome

/-- The exceptions raised by the uberagent backend: the three `Ignore*`
exceptions, `MalformedRuleException`, and the `NotImplementedError` used for
unsupported fields. -/
inductive Err where
  | ignoreTyped
  | ignoreAgg
  | ignoreField
  | malformed
  | notImplemented
deriving DecidableEq

/-- `uberAgentBackend.fieldMapping`. -/
def fieldMapping : List (String × String) :=
  [("commandline", "Process.CommandLine"),
   ("image", "Process.Path"),
   ("originalfilename", "Process.Name"),
   ("imageloaded", "Image.Path"),
   ("imagepath", "Image.Path"),
   ("parentcommandline", "Parent.CommandLine"),
   ("parentprocessname", "Parent.Name"),
   ("parentimage", "Parent.Path"),
   ("path", "Process.Path"),
   ("processcommandline", "Process.CommandLine"),
   ("command", "Process.CommandLine"),
   ("processname", "Process.Name"),
   ("user", "Process.User"),
   ("username", "Process.User"),
   ("company", "Process.Company")]

/-- `uberAgentBackend.fieldMappingPerCategory`. -/
def fieldMappingPerCategory : List (String × List (String × String)) :=
  [("process_creation",
     [("sha1", "Process.Hash.SHA1"),
      ("imphash", "Process.Hash.IMP"),
      ("childimage", "Process.Path")]),
   ("image_load",
     [("sha1", "Image.Hash.SHA1"),
      ("imphash", "Image.Hash.IMP"),
      ("childimage", "Image.Path")]),
   ("dns",
     [("query", "Dns.QueryRequest"),
      ("answer", "Dns.QueryResponse")]),
   ("dns_query",
     [("queryname", "Dns.QueryRequest")]),
   ("network_connection",
     [("destinationport", "Net.Target.Port"),
      ("destinationip", "Net.Target.Ip"),
      ("destinationhostname", "Net.Target.Name"),
      ("destinationisipv6", "Net.Target.IpIsV6"),
      ("sourceport", "Net.Source.Port")]),
   ("firewall",
     [("destination.port", "Net.Target.Port"),
      ("dst_ip", "Net.Target.Ip"),
      ("src_ip", "Net.Source.Ip")]),
   ("create_remote_thread",
     [("targetimage", "Process.Path"),
      ("startmodule", "Thread.StartModule"),
      ("startfunction", "Thread.StartFunctionName")]),
   ("registry_event",
     [("targetobject", "Reg.Key.Target"),
      ("newname", "Reg.Key.Path.New")]),
   ("registry_add",
     [("targetobject", "Reg.Key.Target"),
      ("newname", "Reg.Key.Path.New")]),
   ("registry_delete",
     [("targetobject", "Reg.Key.Target"),
      ("newname", "Reg.Key.Path.New")]),
   ("registry_set",
     [("targetobject", "Reg.Key.Target"),
      ("newname", "Reg.Key.Path.New")]),
   ("registry_rename",
     [("targetobject", "Reg.Key.Target"),
      ("newname", "Reg.Key.Path.New")])]

/-- `uberAgentBackend.ignoreFieldList`. -/
def ignoreFieldList : List String :=
  ["description", "product", "logonid", "integritylevel", "currentdirectory",
   "parentintegritylevel", "eventid", "parentuser", "parent_domain", "signed",
   "parentofparentimage", "record_type", "querystatus", "initiated", "action",
   "targetprocessaddress", "sourceimage", "eventtype", "details"]

/-- `uberAgentBackend.fieldNameMapping`: category-scoped table first, then
the global table, then the ignore list (raising `IgnoreFieldException`),
else `NotImplementedError`.  The lowercased field name is the lookup key. -/
def fieldNameMapping (current_category : Option String) (fieldname : String) :
    Except Err String :=
  let key := StrAux.lowerStr fieldname
  match current_category.bind (fun cat =>
      (fieldMappingPerCategory.lookup cat).bind (fun tbl => tbl.lookup key)) with
  | some v => Except.ok v
  | none =>
    match fieldMapping.lookup key with
    | some v => Except.ok v
    | none =>
      if ignoreFieldList.contains key then Except.error Err.ignoreField
      else Except.error Err.notImplemented

/-- The first substitution of `uberAgentBackend.cleanValue`
(`re.sub(r"(?<!\\)\\(?!(\\|\*|\?))", r"\\\\", val)`): a backslash not preceded
by a backslash and not followed by `\`, `*` or `?` is doubled.  The pattern
matches single characters, so the substitution is a per-position rewrite with
lookbehind/lookahead on the original neighbours. -/
def escDouble : Option Char → List Char → List Char
  | _, [] => []
  | prev, c :: cs =>
    if c = '\\' ∧ prev ≠ some '\\'
        ∧ ¬(cs.head? = some '\\' ∨ cs.head? = some '*' ∨ cs.head? = some '?') then
      '\\' :: '\\' :: escDouble (some c) cs
    else
      c :: escDouble (some c) cs

/-- The `_`/`%`/`"` escaping substitutions of `uberAgentBackend.cleanValue`:
every occurrence of the target character gets a backslash prepended. -/
def escBefore (t : Char) : List Char → List Char
  | [] => []
  | c :: cs => if c = t then '\\' :: c :: escBefore t cs else c :: escBefore t cs

/-- The wildcard substitutions of `uberAgentBackend.cleanValue`
(`re.sub(r"(?<!\\)(\\\\)*(?!\\)\*", r"\1%", val)` and its `?`/`_` twin): a
glyph is replaced exactly when the maximal run of backslashes immediately
before it has even length (the regex consumes such a run as `(\\\\)*`, and the
lookarounds forbid any other match).  The replacement `\1` re-emits only the
last repetition of the consumed group — a single backslash pair — so an even
run of length two or more collapses to one pair (and an empty run to nothing);
an odd run never matches and is emitted verbatim together with its glyph.
Embedded as a left-to-right scan buffering the current backslash run. -/
def wildScan (glyph repl : Char) : Nat → List Char → List Char
  | run, [] => List.replicate run '\\'
  | run, c :: cs =>
    if c = '\\' then wildScan glyph repl (run + 1) cs
    else if c = glyph then
      (if run % 2 = 0 then (if run = 0 then [] else ['\\', '\\']) ++ [repl]
       else List.replicate run '\\' ++ [glyph]) ++ wildScan glyph repl 0 cs
    else List.replicate run '\\' ++ (c :: wildScan glyph repl 0 cs)

/-- The six substitutions of `uberAgentBackend.cleanValue` on a string, in
source order. -/
def cleanValueL (val : List Char) : List Char :=
  wildScan '?' '_' 0
    (wildScan '*' '%' 0
      (escBefore StrAux.dquoteCh
        (escBefore '%'
          (escBefore '_'
            (escDouble none val)))))

/-- A scalar sigma value: Python `str` or `int`. -/
inductive Scalar where
  | str (s : String)
  | int (n : Int)
deriving DecidableEq

/-- `uberAgentBackend.cleanValue`: non-strings are stringified unchanged,
strings go through the substitution pipeline. -/
def cleanValue : Scalar → String
  | Scalar.str s => ⟨cleanValueL s.data⟩
  | Scalar.int n => toString n

/-- Modelled from the spec: the base class's `generateValueNode`, which
applies the backend's `valueExpression` token (`"%s"`, i.e. double quotes,
taken from the source's class attributes) to the cleaned value. -/
def generateValueNode (v : Scalar) : String :=
  String.singleton StrAux.dquoteCh ++ cleanValue v ++ String.singleton StrAux.dquoteCh

/-- A sigma map value: a scalar, `None`, or a list of scalars. -/
inductive Value where
  | scalar (s : Scalar)
  | null
  | list (xs : List Scalar)
deriving DecidableEq

/-- Modelled from the spec: the base class's `generateListNode`, using the
source's class attributes `listExpression = "[%s]"` and
`listSeparator = ", "`. -/
def generateListNode (xs : List Scalar) : String :=
  "[" ++ StrAux.joinSep ", " (xs.map generateValueNode) ++ "]"

/-- `self.generateNode(value)` for the value position inside
`generateMapItemNode` (the `None` case is checked by the caller first and
never reaches here). -/
def generateNodeValue : Value → String
  | Value.scalar s => generateValueNode s
  | Value.list xs => generateListNode xs
  | Value.null => ""

/-- The `has_wildcard` test of `uberAgentBackend.generateMapItemNode`
(`re.search(r"((\\(\*|\?|\\))|\*|\?|_|%)", ...)`): a match exists iff the text
contains `*`, `?`, `_`, `%`, or two consecutive backslashes. -/
def hasWildcard (s : String) : Bool :=
  s.data.any (fun c => c == '*' || c == '?' || c == '_' || c == '%')
    || StrAux.hasSub ['\\', '\\'] s.data

/-- `uberAgentBackend.generateMapItemListNode`: each item rendered with
`mapWildcard = "%s like r%s"`, OR-joined and parenthesized. -/
def generateMapItemListNode (key : String) (value : List Scalar) : String :=
  "(" ++ StrAux.joinSep " or "
    (value.map (fun item => key ++ " like r" ++ generateValueNode item)) ++ ")"

/-- The backend's `nullExpression = "%s == ''"` applied to a field name. -/
def nullExpressionFor (f : String) : String :=
  f ++ " == " ++ String.singleton StrAux.quoteCh ++ String.singleton StrAux.quoteCh

/-- `uberAgentBackend.generateMapItemNode`: resolve the field (which may
raise), handle `None` first, then the comma/in branch, the list branch, and
the scalar wildcard/equality branches, in source order. -/
def generateMapItemNode (current_category : Option String) (fieldname : String)
    (value : Value) : Except Err String := do
  let transformed_fieldname ← fieldNameMapping current_category fieldname
  match value with
  | Value.null => pure (nullExpressionFor transformed_fieldname)
  | _ =>
    let g := generateNodeValue value
    let hw := hasWildcard g
    if StrAux.strHasChar g ',' ∧ hw = false then
      pure (transformed_fieldname ++ " in " ++ g)
    else
      match value with
      | Value.list xs => pure (generateMapItemListNode transformed_fieldname xs)
      | Value.scalar _ =>
        if hw then pure (transformed_fieldname ++ " like r" ++ g)
        else pure (transformed_fieldname ++ " == " ++ g)
      | Value.null => pure (nullExpressionFor transformed_fieldname)

/-- A sigma condition-tree node as consumed by the uberagent backend. -/
inductive Node where
  | andNode (xs : List Node)
  | orNode (xs : List Node)
  | notNode (x : Node)
  | subNode (x : Node)
  | fieldMatch (field : String) (value : Value)

mutual

/-- Modelled from the spec: the shared base class's recursive `generateNode`
dispatch — AND/OR children are rendered and joined with the backend's
`andToken`/`orToken`, NOT prefixes `notToken`, a subexpression is wrapped in
`subExpression = "(%s)"`, and a map item is delegated to the backend's
`generateMapItemNode`.  An exception raised below propagates (the generic base
class cannot catch the uberagent-specific exception types). -/
def generateNode (cat : Option String) : Node → Except Err String
  | Node.andNode xs => (generateNodeList cat xs).map (StrAux.joinSep " and ")
  | Node.orNode xs => (generateNodeList cat xs).map (StrAux.joinSep " or ")
  | Node.notNode x => (generateNode cat x).map (fun s => "not " ++ s)
  | Node.subNode x => (generateNode cat x).map (fun s => "(" ++ s ++ ")")
  | Node.fieldMatch f v => generateMapItemNode cat f v

/-- Modelled from the spec: rendering of an ordered child list, preserving
input order; the first exception aborts the list (Python semantics). -/
def generateNodeList (cat : Option String) : List Node → Except Err (List String)
  | [] => Except.ok []
  | x :: xs => do
    let r ← generateNode cat x
    let rs ← generateNodeList cat xs
    pure (r :: rs)

end

/-- The `ActivityMonitoringRule` fields set by the backend. -/
structure ActivityMonitoringRule where
  name : String
  event_type : Option String
  tag : String
  query : String
  risk_score : Nat
  sigma_level : String
  description : String
deriving DecidableEq

/-- `ActivityMonitoringRule._prefixed_tag`: only `Process.Start` has a prefix
(`proc-start`). -/
def prefixedTag (r : ActivityMonitoringRule) : String :=
  if r.event_type = some "Process.Start" then "proc-start-" ++ r.tag else r.tag

/-- `ActivityMonitoringRule.generic_properties`, in insertion order. -/
def generic_properties : List (String × List String) :=
  [("Process.",
     ["Process.Hash.MD5", "Process.Hash.SHA1", "Process.Hash.SHA256", "Process.Hash.IMP"]),
   ("Image.",
     ["Image.Name", "Image.Path", "Image.Hash.MD5", "Image.Hash.SHA1",
      "Image.Hash.SHA256", "Image.Hash.IMP"]),
   ("Net.",
     ["Net.Target.Ip", "Net.Target.Name", "Net.Target.Port", "Net.Target.Protocol",
      "Net.Source.Ip", "Net.Source.Port"]),
   ("Reg.",
     ["Reg.Key.Path", "Reg.Key.Path.New", "Reg.Key.Path.Old", "Reg.Key.Name",
      "Reg.Parent.Key.Path", "Reg.Value.Name", "Reg.File.Name", "Reg.Key.Sddl",
      "Reg.Key.Hive", "Reg.Key.Target"]),
   ("Dns.",
     ["Dns.QueryRequest", "Dns.QueryResponse"])]

/-- The inner `for prop in ...` loop of `ActivityMonitoringRule.__str__`:
emits `GenericProperty<counter> = <prop>` lines, breaking once the counter
exceeds 10; returns the emitted segments and the final counter. -/
def gpInner : List String → Nat → (List String × Nat)
  | [], counter => ([], counter)
  | p :: ps, counter =>
    if counter > 10 then ([], counter)
    else
      let r := gpInner ps (counter + 1)
      (("GenericProperty" ++ toString counter ++ " = " ++ p ++ "\n") :: r.1, r.2)

/-- The outer `for event_type_prefix in ...` loop of
`ActivityMonitoringRule.__str__`: the counter persists across table entries. -/
def gpOuter (et : String) : List (String × List String) → Nat → List String
  | [], _ => []
  | (pre, props) :: rest, counter =>
    if pre.data.isPrefixOf et.data then
      let r := gpInner props counter
      r.1 ++ gpOuter et rest r.2
    else gpOuter et rest counter

/-- The `GenericProperty` segments a serialized block gets for an event type. -/
def genericPropertySegs (et : String) : List String :=
  gpOuter et generic_properties 1

/-- Python `str.splitlines` for newline-separated text: split on `\n`,
without a trailing empty line. -/
def splitLinesPy (s : String) : List String :=
  let parts := (s.data.foldr
    (fun c acc =>
      if c = '\n' then [] :: acc
      else match acc with
        | h :: t => (c :: h) :: t
        | [] => [[c]]) [[]]).map (fun l => (⟨l⟩ : String))
  if parts.getLast? = some "" then parts.dropLast else parts

/-- `ActivityMonitoringRule.__str__` as the ordered list of appended
segments (each `result += ...` contributes its text): header, description
comment lines, the required-property checks (raising
`MalformedRuleException`), the property lines, the optional `RiskScore` and
`Hive` lines, and the `GenericProperty` lines. -/
def ruleSegments (r : ActivityMonitoringRule) : Except Err (List String) :=
  let descSegs :=
    if r.description.length > 0 then
      (splitLinesPy r.description).map (fun d => "# " ++ d ++ "\n")
    else []
  match r.event_type with
  | none => Except.error Err.malformed
  | some et =>
    if r.tag = "" then Except.error Err.malformed
    else if r.name = "" then Except.error Err.malformed
    else if r.query = "" then Except.error Err.malformed
    else Except.ok (
      ["[ActivityMonitoringRule]\n"] ++
      (descSegs ++
      (["RuleName = " ++ r.name ++ "\n",
        "EventType = " ++ et ++ "\n",
        "Tag = " ++ prefixedTag r ++ "\n"] ++
      ((if r.risk_score > 0 then ["RiskScore = " ++ toString r.risk_score ++ "\n"] else []) ++
      (["Query = " ++ r.query ++ "\n"] ++
      ((if et = "Reg.Any" then ["Hive = HKLM,HKU\n"] else []) ++
      genericPropertySegs et))))))

/-- Concatenation of the segments: the string `__str__` returns. -/
def joinAll : List String → String
  | [] => ""
  | s :: rest => s ++ joinAll rest

/-- `str(rule)`: the serialized configuration block, or the
`MalformedRuleException`. -/
def ruleStr (r : ActivityMonitoringRule) : Except Err String :=
  (ruleSegments r).map joinAll

/-- The per-rule inputs `uberAgentBackend.generate` reads via
`get_parser_properties`, plus the parsed condition tree and whether the rule
carries an aggregation clause. -/
structure RuleInput where
  product : String
  category : String
  title : String
  level : String
  description : String
  tree : Node
  hasAgg : Bool

/-- `uberAgentBackend.generate`: unsupported category or product yield no
rule; an aggregation raises `IgnoreAggregationException` inside the `try` and
is caught; the `Ignore*`/`Malformed` exceptions from query generation are
caught (dropping the rule), while `NotImplementedError` propagates; a
non-empty query produces the accumulated `ActivityMonitoringRule`. -/
def generate (inp : RuleInput) : Except Err (Option ActivityMonitoringRule) :=
  if is_sigma_category_supported inp.category = false then Except.ok none
  else if ¬(inp.product = "windows" ∨ inp.product = "") then Except.ok none
  else if inp.hasAgg then Except.ok none
  else
    match generateNode (some inp.category) inp.tree with
    | Except.error Err.notImplemented => Except.error Err.notImplemented
    | Except.error _ => Except.ok none
    | Except.ok q =>
      if q.length > 0 then
        Except.ok (some
          ⟨inp.title,
           convert_sigma_category_to_uberagent_event_type inp.category,
           convert_sigma_name_to_uberagent_tag inp.title,
           q,
           convert_sigma_level_to_uberagent_risk_score inp.level,
           inp.level,
           inp.description⟩)
      else Except.ok none

/-- The `for rule in self.rules` loop of `uberAgentBackend.serialize_file`:
rules of the requested level are serialized and counted; a
`MalformedRuleException` skips just that rule (`continue`). -/
def serialize_file_loop (level : String) :
    List ActivityMonitoringRule → Nat → List String → Nat × List String
  | [], count, out => (count, out)
  | r :: rest, count, out =>
    if r.sigma_level = level then
      match ruleStr r with
      | Except.ok s => serialize_file_loop level rest (count + 1) (out ++ [s ++ "\n"])
      | Except.error _ => serialize_file_loop level rest count out
    else serialize_file_loop level rest count out

/-- `uberAgentBackend.serialize_file`: the written rule blocks (file header
aside) and the returned count. -/
def serialize_file (rules : List ActivityMonitoringRule) (level : String) :
    Nat × List String :=
  serialize_file_loop level rules 0 []

/-- `uberAgentBackend.finalize`: one destination per serialized severity, in
source order — critical, high, low, medium. -/
def finalize (rules : List ActivityMonitoringRule) :
    List (String × (Nat × List String)) :=
  [("critical", serialize_file rules "critical"),
   ("high", serialize_file rules "high"),
   ("low", serialize_file rules "low"),
   ("medium", serialize_file rules "medium")]

end uberAgentBackend

-- ######################################################################
-- Theorems
-- ######################################################################

namespace StrAux

theorem isPrefixOf_append_of (p : List Char) :
    ∀ (l x : List Char), p.isPrefixOf l = true → p.isPrefixOf (l ++ x) = true := by
  induction p with
  | nil => intro l x _; simp [List.isPrefixOf]
  | cons a as ih =>
    intro l x h
    cases l with
    | nil => simp [List.isPrefixOf] at h
    | cons b bs =>
      simp only [List.isPrefixOf, List.cons_append, Bool.and_eq_true, beq_iff_eq] at h ⊢
      exact ⟨h.1, ih bs x h.2⟩

theorem isPrefixOf_self_list (p : List Char) : p.isPrefixOf p = true := by
  induction p with
  | nil => simp [List.isPrefixOf]
  | cons a as ih => simp [List.isPrefixOf, ih]

theorem isPrefixOf_self_append (p x : List Char) : p.isPrefixOf (p ++ x) = true :=
  isPrefixOf_append_of p p x (isPrefixOf_self_list p)

end StrAux

namespace QRadarBackend

theorem reverse_cons_of_ne_nil (l : List Char) (h : l ≠ []) :
    ∃ c t, l.reverse = c :: t := by
  cases hr : l.reverse with
  | nil => exact absurd (List.reverse_eq_nil_iff.mp hr) h
  | cons c t => exact ⟨c, t, rfl⟩

theorem dollar_shift (l : List Char) (h : l ≠ []) :
    ['$'].isPrefixOf ((['.', '*'] ++ l).reverse) = ['$'].isPrefixOf l.reverse := by
  obtain ⟨c, t, hct⟩ := reverse_cons_of_ne_nil l h
  rw [List.reverse_append, hct]
  simp [List.isPrefixOf]

theorem dotstar_shift (l : List Char) (h : l ≠ []) :
    ['*', '.'].isPrefixOf ((['.', '*'] ++ l).reverse) = ['*', '.'].isPrefixOf l.reverse := by
  obtain ⟨c, t, hct⟩ := reverse_cons_of_ne_nil l h
  rw [List.reverse_append, hct]
  cases t with
  | nil => simp [List.isPrefixOf]
  | cons d t' => simp [List.isPrefixOf]

theorem anchorPrepend_starts_ok (l : List Char) :
    (['^'].isPrefixOf (anchorPrepend l) || ['.', '*'].isPrefixOf (anchorPrepend l)) = true := by
  unfold anchorPrepend
  cases hg : (!(['^'].isPrefixOf l) && !(['.', '*'].isPrefixOf l)) with
  | true =>
    simp only [if_pos rfl, hg, if_true]
    have := StrAux.isPrefixOf_self_append ['.', '*'] l
    simp [this]
  | false =>
    simp only [hg, Bool.false_eq_true, if_false]
    cases hA : ['^'].isPrefixOf l with
    | true => simp [hA]
    | false =>
      cases hB : ['.', '*'].isPrefixOf l with
      | true => simp [hB]
      | false => rw [hA, hB] at hg; simp at hg

theorem anchorAppend_keeps_start (r : List Char)
    (h : (['^'].isPrefixOf r || ['.', '*'].isPrefixOf r) = true) :
    (['^'].isPrefixOf (anchorAppend r) || ['.', '*'].isPrefixOf (anchorAppend r)) = true := by
  unfold anchorAppend
  cases hg : (!(['$'].isPrefixOf r.reverse) && !(['*', '.'].isPrefixOf r.reverse)) with
  | true =>
    simp only [hg, if_true]
    rcases Bool.or_eq_true_iff.mp h with h1 | h1
    · simp [StrAux.isPrefixOf_append_of _ r _ h1]
    · simp [StrAux.isPrefixOf_append_of _ r _ h1]
  | false =>
    simp only [hg, Bool.false_eq_true, if_false]
    exact h

theorem anchorAppend_ends_ok (r : List Char) :
    (['$'].isPrefixOf (anchorAppend r).reverse || ['*', '.'].isPrefixOf (anchorAppend r).reverse) = true := by
  unfold anchorAppend
  cases hg : (!(['$'].isPrefixOf r.reverse) && !(['*', '.'].isPrefixOf r.reverse)) with
  | true =>
    simp only [hg, if_true]
    rw [List.reverse_append]
    have h2 := StrAux.isPrefixOf_self_append ['*', '.'] r.reverse
    simp only [show (['.', '*'] : List Char).reverse = ['*', '.'] from rfl]
    simp [h2]
  | false =>
    simp only [hg, Bool.false_eq_true, if_false]
    cases hA : ['$'].isPrefixOf r.reverse with
    | true => simp [hA]
    | false =>
      cases hB : ['*', '.'].isPrefixOf r.reverse with
      | true => simp [hB]
      | false => rw [hA, hB] at hg; simp at hg

theorem anchorPrepend_id_of_ok (r : List Char)
    (h : (['^'].isPrefixOf r || ['.', '*'].isPrefixOf r) = true) :
    anchorPrepend r = r := by
  unfold anchorPrepend
  have : (!(['^'].isPrefixOf r) && !(['.', '*'].isPrefixOf r)) = false := by
    rcases Bool.or_eq_true_iff.mp h with h1 | h1 <;> simp [h1]
  simp [this]

theorem anchorAppend_id_of_ok (r : List Char)
    (h : (['$'].isPrefixOf r.reverse || ['*', '.'].isPrefixOf r.reverse) = true) :
    anchorAppend r = r := by
  unfold anchorAppend
  have : (!(['$'].isPrefixOf r.reverse) && !(['*', '.'].isPrefixOf r.reverse)) = false := by
    rcases Bool.or_eq_true_iff.mp h with h1 | h1 <;> simp [h1]
  simp [this]

end QRadarBackend

/-- Claim C7 counterexample: on the empty pattern the source's anchoring yields
`.*` while the claim's rule (append `.*` when the original pattern ends with
neither `$` nor `.*`) would yield `.*.*`; the two disagree. -/
theorem claim_c7_counterexample :
    QRadarBackend.anchorRegexL [] = ['.', '*'] ∧
    QRadarBackend.anchorRegexClaim [] = ['.', '*', '.', '*'] ∧
    QRadarBackend.anchorRegexL [] ≠ QRadarBackend.anchorRegexClaim [] := by
  refine ⟨by decide, by decide, by decide⟩

/-- Claim C7 (amended): for every non-empty pattern the anchoring prepends `.*`
iff the pattern starts with neither `^` nor `.*` and appends `.*` iff the
original pattern ends with neither `$` nor `.*` (the sole divergence from the
claim is the empty pattern); moreover anchoring is idempotent on all patterns. -/
theorem claim_c7_amended :
    (∀ l : List Char, l ≠ [] → QRadarBackend.anchorRegexL l = QRadarBackend.anchorRegexClaim l) ∧
    (∀ l : List Char, QRadarBackend.anchorRegexL (QRadarBackend.anchorRegexL l) = QRadarBackend.anchorRegexL l) := by
  constructor
  · intro l hl
    unfold QRadarBackend.anchorRegexL QRadarBackend.anchorRegexClaim
      QRadarBackend.anchorPrepend QRadarBackend.anchorAppend
    cases hg : (!(['^'].isPrefixOf l) && !(['.', '*'].isPrefixOf l)) with
    | true =>
      simp only [hg, if_true]
      rw [QRadarBackend.dollar_shift l hl, QRadarBackend.dotstar_shift l hl]
      cases hs : (!(['$'].isPrefixOf l.reverse) && !(['*', '.'].isPrefixOf l.reverse)) with
      | true => simp [hs]
      | false => simp [hs]
    | false =>
      simp only [hg, Bool.false_eq_true, if_false]
      cases hs : (!(['$'].isPrefixOf l.reverse) && !(['*', '.'].isPrefixOf l.reverse)) with
      | true => simp [hs]
      | false => simp [hs]
  · intro l
    have h1 : (['^'].isPrefixOf (QRadarBackend.anchorRegexL l)
        || ['.', '*'].isPrefixOf (QRadarBackend.anchorRegexL l)) = true :=
      QRadarBackend.anchorAppend_keeps_start _ (QRadarBackend.anchorPrepend_starts_ok l)
    have h2 : (['$'].isPrefixOf (QRadarBackend.anchorRegexL l).reverse
        || ['*', '.'].isPrefixOf (QRadarBackend.anchorRegexL l).reverse) = true :=
      QRadarBackend.anchorAppend_ends_ok _
    show QRadarBackend.anchorAppend (QRadarBackend.anchorPrepend (QRadarBackend.anchorRegexL l))
        = QRadarBackend.anchorRegexL l
    rw [QRadarBackend.anchorPrepend_id_of_ok _ h1, QRadarBackend.anchorAppend_id_of_ok _ h2]

/-- Claim C7 amended witness: the anchoring evaluated through the amended
theorem at the concrete pattern `abc`. -/
theorem claim_c7_amended_witness :
    QRadarBackend.anchorRegexL ['a', 'b', 'c'] = QRadarBackend.anchorRegexClaim ['a', 'b', 'c'] ∧
    QRadarBackend.anchorRegexL ['a', 'b', 'c'] = ['.', '*', 'a', 'b', 'c', '.', '*'] :=
  ⟨claim_c7_amended.1 ['a', 'b', 'c'] (by decide), by decide⟩

/-- Claim C2 counterexample: for an aggregation with no group-by field and a
non-near function, the epilogue is not only a HAVING comparison — it starts
with a `group by` fragment (on the aggregation field). -/
theorem claim_c2_counterexample :
    QRadarBackend.generateAggregation
        (some ⟨QRadarBackend.AggFunc.count, "count", some "x", none, ">", "5"⟩) none
      = Except.ok (some ("SELECT count(x) as agg_val from events where",
                         " group by x having agg_val > 5"))
    ∧ StrAux.strHasSub "group by" " group by x having agg_val > 5" = true := by
  refine ⟨by rfl, by decide⟩

/-- Claim C2 (amended): for every aggregation whose group-by field is absent
and whose function is not `near`, the translator returns a prologue selecting
the aggregate and an epilogue `group by <aggregation field> having agg_val
<operator> <threshold>` — i.e. it does group by, using the aggregation field
in place of the missing group-by field. -/
theorem claim_c2_amended (agg : QRadarBackend.Agg) (tf : Option String)
    (hnear : agg.aggfunc ≠ QRadarBackend.AggFunc.near)
    (hgroup : agg.groupfield = none) :
    QRadarBackend.generateAggregation (some agg) tf
      = Except.ok (some
        ("SELECT " ++ agg.aggfunc_notrans ++ "(" ++ QRadarBackend.cleanKey agg.aggfield
           ++ ") as agg_val from events where",
         " group by " ++ QRadarBackend.cleanKey agg.aggfield ++ " having agg_val "
           ++ agg.cond_op ++ " " ++ agg.condition)) := by
  simp only [QRadarBackend.generateAggregation]
  rw [if_neg hnear, if_pos hgroup]

/-- Claim C2 amended witness: the amended theorem evaluated at a concrete
aggregation clause. -/
theorem claim_c2_amended_witness :
    QRadarBackend.generateAggregation
        (some ⟨QRadarBackend.AggFunc.count, "count", some "y", none, ">=", "10"⟩) (some "5m")
      = Except.ok (some ("SELECT count(y) as agg_val from events where",
                         " group by y having agg_val >= 10")) := by
  rw [claim_c2_amended ⟨QRadarBackend.AggFunc.count, "count", some "y", none, ">=", "10"⟩
    (some "5m") (by decide) rfl]
  rfl

/-- Claim C6: the timeframe unit is inferred from the trailing character
(`s` seconds, `m` minutes, `h` hours, `d` days, anything else months), the
remaining prefix is the integer duration, and with both a group-by field and
a timeframe the epilogue ends with `LAST <duration> <unit>`. -/
theorem claim_c6_timeframe_unit (agg : QRadarBackend.Agg) (g tf : String) (n : Nat)
    (hnear : agg.aggfunc ≠ QRadarBackend.AggFunc.near)
    (hgroup : agg.groupfield = some g)
    (h00 : tf ≠ "00")
    (hn : StrAux.parseNat tf.data.dropLast = some n) :
    QRadarBackend.generateAggregation (some agg) (some tf)
      = Except.ok (some
        (" SELECT " ++ agg.aggfunc_notrans ++ "(" ++ QRadarBackend.cleanKey agg.aggfield
           ++ ") as agg_val from events where ",
         " group by " ++ QRadarBackend.cleanKey (some g) ++ " having agg_val "
           ++ agg.cond_op ++ " " ++ agg.condition ++ " LAST " ++ toString n ++ " "
           ++ (if tf.data.getLast? = some 's' then "seconds"
               else if tf.data.getLast? = some 'm' then "minutes"
               else if tf.data.getLast? = some 'h' then "hours"
               else if tf.data.getLast? = some 'd' then "days"
               else "months"))) := by
  have hgne : agg.groupfield ≠ none := by rw [hgroup]; simp
  simp only [QRadarBackend.generateAggregation]
  rw [if_neg hnear, if_neg hgne, if_neg (by simp [h00])]
  simp only [QRadarBackend.generateTimeframe]
  rw [hgroup]
  simp [hn]

/-- Claim C6 witness: `30m` gives duration `30` and unit `minutes`. -/
theorem claim_c6_timeframe_unit_witness :
    QRadarBackend.generateAggregation
        (some ⟨QRadarBackend.AggFunc.count, "count", some "f", some "user", ">", "5"⟩)
        (some "30m")
      = Except.ok (some (" SELECT count(f) as agg_val from events where ",
                         " group by user having agg_val > 5 LAST 30 minutes")) := by
  rw [claim_c6_timeframe_unit
    ⟨QRadarBackend.AggFunc.count, "count", some "f", some "user", ">", "5"⟩
    "user" "30m" 30 (by decide) rfl (by decide) (by decide)]
  rfl

/-- Claim C8: each list item is rendered by classification — null test for a
`None` item, an address-in-range expression for a CIDR-shaped item under a
field name containing `ip`, a pattern-match expression for an item containing
a wildcard, an equality expression otherwise — and the per-item clauses are
joined with `" or "` in input order and parenthesized.  The second conjunct is
the spec's concrete example. -/
theorem claim_c8_list_value_rendering (key : String) (value : List QRadarBackend.Item) :
    QRadarBackend.generateMapItemListNode key value
      = "(" ++ StrAux.joinSep " or " (value.map (fun item =>
          match item with
          | QRadarBackend.Item.null => key ++ " is null"
          | QRadarBackend.Item.str s =>
            if StrAux.strHasSub "ip" key
                && (StrAux.strHasSub "/16" s || StrAux.strHasSub "/24" s) then
              "INCIDR(" ++ QRadarBackend.generateValueNode (QRadarBackend.Item.str s)
                ++ ", " ++ QRadarBackend.cleanKey (some key) ++ ")"
            else if StrAux.strHasChar s '*' then
              QRadarBackend.cleanKey (some key) ++ " ilike "
                ++ QRadarBackend.generateValueNode
                     (QRadarBackend.Item.str (QRadarBackend.starToPercent s))
            else
              QRadarBackend.cleanKey (some key) ++ " = "
                ++ QRadarBackend.generateValueNode (QRadarBackend.Item.str s)
          | QRadarBackend.Item.int n =>
              QRadarBackend.cleanKey (some key) ++ " = "
                ++ QRadarBackend.generateValueNode (QRadarBackend.Item.int n))) ++ ")"
    ∧ QRadarBackend.generateMapItemListNode "src_ip"
        [QRadarBackend.Item.str "10.0.0.0/16", QRadarBackend.Item.str "10.0.0.5"]
      = "(INCIDR(" ++ String.singleton StrAux.quoteCh ++ "10.0.0.0/16"
          ++ String.singleton StrAux.quoteCh ++ ", src_ip) or src_ip = "
          ++ String.singleton StrAux.quoteCh ++ "10.0.0.5"
          ++ String.singleton StrAux.quoteCh ++ ")" := by
  constructor
  · unfold QRadarBackend.generateMapItemListNode
    have hmap : ∀ v : List QRadarBackend.Item,
        QRadarBackend.itemLoop key v = v.map (QRadarBackend.renderListItem key) := by
      intro v
      induction v with
      | nil => rfl
      | cons i rest ih => simp [QRadarBackend.itemLoop, ih]
    rw [hmap]
    refine congrArg (fun t => "(" ++ StrAux.joinSep " or " t ++ ")") ?_
    induction value with
    | nil => rfl
    | cons i rest ih =>
      simp only [List.map_cons]
      rw [ih]
      cases i <;> rfl
  · decide

/-- Claim C4 counterexample: in the qradar backend a `*` preceded by an odd
number of backslashes (here one) is still translated to `%`: the compiled
clause for value `\*` contains no `*` at all, so the occurrence is not
preserved as the claim requires. -/
theorem claim_c4_counterexample :
    QRadarBackend.generateMapItemNodeScalar "f" (QRadarBackend.Item.str "\\*")
      = "f ilike " ++ String.singleton StrAux.quoteCh ++ "\\%"
          ++ String.singleton StrAux.quoteCh
    ∧ StrAux.strHasChar
        (QRadarBackend.generateMapItemNodeScalar "f" (QRadarBackend.Item.str "\\*")) '*'
      = false := by
  refine ⟨by decide, by decide⟩

/-- Claim C5: field resolution tries the category-scoped table first, then the
global table, then the ignore set (raising the ignore signal), and otherwise
fails with the unsupported-field error; matching is on the lowercased field
name only (so case-insensitive), and the mapped spelling is returned as-is. -/
theorem claim_c5_field_resolution (cur : Option String) (f : String) :
    (∀ v, cur.bind (fun cat => (uberAgentBackend.fieldMappingPerCategory.lookup cat).bind
        (fun tbl => tbl.lookup (StrAux.lowerStr f))) = some v →
      uberAgentBackend.fieldNameMapping cur f = Except.ok v)
    ∧ (cur.bind (fun cat => (uberAgentBackend.fieldMappingPerCategory.lookup cat).bind
        (fun tbl => tbl.lookup (StrAux.lowerStr f))) = none →
      ∀ v, uberAgentBackend.fieldMapping.lookup (StrAux.lowerStr f) = some v →
        uberAgentBackend.fieldNameMapping cur f = Except.ok v)
    ∧ (cur.bind (fun cat => (uberAgentBackend.fieldMappingPerCategory.lookup cat).bind
        (fun tbl => tbl.lookup (StrAux.lowerStr f))) = none →
      uberAgentBackend.fieldMapping.lookup (StrAux.lowerStr f) = none →
      uberAgentBackend.ignoreFieldList.contains (StrAux.lowerStr f) = true →
        uberAgentBackend.fieldNameMapping cur f = Except.error uberAgentBackend.Err.ignoreField)
    ∧ (cur.bind (fun cat => (uberAgentBackend.fieldMappingPerCategory.lookup cat).bind
        (fun tbl => tbl.lookup (StrAux.lowerStr f))) = none →
      uberAgentBackend.fieldMapping.lookup (StrAux.lowerStr f) = none →
      uberAgentBackend.ignoreFieldList.contains (StrAux.lowerStr f) = false →
        uberAgentBackend.fieldNameMapping cur f = Except.error uberAgentBackend.Err.notImplemented)
    ∧ (∀ g : String, StrAux.lowerStr f = StrAux.lowerStr g →
        uberAgentBackend.fieldNameMapping cur f = uberAgentBackend.fieldNameMapping cur g) := by
  refine ⟨?_, ?_, ?_, ?_, ?_⟩
  · intro v h
    simp only [uberAgentBackend.fieldNameMapping]
    rw [h]
  · intro h v hv
    simp only [uberAgentBackend.fieldNameMapping]
    rw [h, hv]
  · intro h hv hi
    simp only [uberAgentBackend.fieldNameMapping]
    rw [h, hv, if_pos hi]
  · intro h hv hi
    simp only [uberAgentBackend.fieldNameMapping]
    rw [h, hv, if_neg (by rw [hi]; simp)]
  · intro g hg
    simp only [uberAgentBackend.fieldNameMapping]
    rw [hg]

/-- Claim C5 witness: the four resolution outcomes at concrete inputs, via the
resolution-order theorem. -/
theorem claim_c5_field_resolution_witness :
    uberAgentBackend.fieldNameMapping (some "dns") "Query" = Except.ok "Dns.QueryRequest"
    ∧ uberAgentBackend.fieldNameMapping (some "process_creation") "User" = Except.ok "Process.User"
    ∧ uberAgentBackend.fieldNameMapping (some "process_creation") "EventID"
        = Except.error uberAgentBackend.Err.ignoreField
    ∧ uberAgentBackend.fieldNameMapping (some "process_creation") "nosuchfieldname"
        = Except.error uberAgentBackend.Err.notImplemented :=
  ⟨(claim_c5_field_resolution (some "dns") "Query").1 "Dns.QueryRequest" (by rfl),
   (claim_c5_field_resolution (some "process_creation") "User").2.1 (by rfl) "Process.User" (by rfl),
   (claim_c5_field_resolution (some "process_creation") "EventID").2.2.1 (by rfl) (by rfl) (by rfl),
   (claim_c5_field_resolution (some "process_creation") "nosuchfieldname").2.2.2.1
     (by rfl) (by rfl) (by rfl)⟩

/-- Claim C1 counterexample: a rule whose AND tree pairs a supported field
(`image`) with an ignored field (`eventid`) compiles to nothing at all — no
rule is emitted — although the remaining clause on its own renders fine; the
ignored clause is not elided from the join, the whole rule is dropped. -/
theorem claim_c1_counterexample :
    uberAgentBackend.generate
      ⟨"windows", "process_creation", "Test Rule", "high", "",
        uberAgentBackend.Node.andNode
          [uberAgentBackend.Node.fieldMatch "image"
             (uberAgentBackend.Value.scalar (uberAgentBackend.Scalar.str "x")),
           uberAgentBackend.Node.fieldMatch "eventid"
             (uberAgentBackend.Value.scalar (uberAgentBackend.Scalar.str "1"))],
        false⟩
      = Except.ok none
    ∧ uberAgentBackend.generateNode (some "process_creation")
        (uberAgentBackend.Node.andNode
          [uberAgentBackend.Node.fieldMatch "image"
             (uberAgentBackend.Value.scalar (uberAgentBackend.Scalar.str "x"))])
      = Except.ok ("Process.Path == " ++ String.singleton StrAux.dquoteCh ++ "x"
          ++ String.singleton StrAux.dquoteCh) :=
  ⟨rfl, rfl⟩

theorem generateNodeList_error_of_mem (cat : Option String) :
    ∀ (xs : List uberAgentBackend.Node) (x : uberAgentBackend.Node), x ∈ xs →
      uberAgentBackend.generateNode cat x = Except.error uberAgentBackend.Err.ignoreField →
      ∃ e, uberAgentBackend.generateNodeList cat xs = Except.error e := by
  intro xs
  induction xs with
  | nil => intro x hx; exact absurd hx (List.not_mem_nil x)
  | cons y ys ih =>
    intro x hx herr
    rcases List.mem_cons.mp hx with rfl | hmem
    · exact ⟨uberAgentBackend.Err.ignoreField,
        by simp only [uberAgentBackend.generateNodeList, herr]; rfl⟩
    · obtain ⟨e, he⟩ := ih x hmem herr
      cases hy : uberAgentBackend.generateNode cat y with
      | error e2 => exact ⟨e2, by simp only [uberAgentBackend.generateNodeList, hy]; rfl⟩
      | ok r => exact ⟨e, by simp only [uberAgentBackend.generateNodeList, hy, he]; rfl⟩

/-- Claim C1 (amended): the ignore signal raised for an ignored field is not
caught at the enclosing combinator — an AND node with any child signalling an
ignored field fails as a whole — and `generate` catches the signal at rule
level, dropping the entire rule (no output, no emitted rule) instead of
compiling the rest of the tree. -/
theorem claim_c1_amended :
    (∀ inp : uberAgentBackend.RuleInput,
      uberAgentBackend.is_sigma_category_supported inp.category = true →
      (inp.product = "windows" ∨ inp.product = "") →
      inp.hasAgg = false →
      uberAgentBackend.generateNode (some inp.category) inp.tree
        = Except.error uberAgentBackend.Err.ignoreField →
      uberAgentBackend.generate inp = Except.ok none)
    ∧ (∀ (cat : Option String) (xs : List uberAgentBackend.Node)
          (x : uberAgentBackend.Node), x ∈ xs →
        uberAgentBackend.generateNode cat x = Except.error uberAgentBackend.Err.ignoreField →
        ∃ e, uberAgentBackend.generateNode cat (uberAgentBackend.Node.andNode xs)
          = Except.error e) := by
  constructor
  · intro inp hcat hprod hagg htree
    unfold uberAgentBackend.generate
    rw [if_neg (by simp [hcat]), if_neg (not_not_intro hprod), if_neg (by simp [hagg]),
      htree]
  · intro cat xs x hx herr
    obtain ⟨e, he⟩ := generateNodeList_error_of_mem cat xs x hx herr
    exact ⟨e, by simp only [uberAgentBackend.generateNode, he]; rfl⟩

/-- Claim C1 amended witness: the amended theorem applied to a concrete rule
whose tree signals an ignored field (`eventtype`). -/
theorem claim_c1_amended_witness :
    uberAgentBackend.generate
      ⟨"", "dns", "T", "low", "",
        uberAgentBackend.Node.andNode
          [uberAgentBackend.Node.fieldMatch "eventtype"
             (uberAgentBackend.Value.scalar (uberAgentBackend.Scalar.str "q"))],
        false⟩
      = Except.ok none :=
  claim_c1_amended.1
    ⟨"", "dns", "T", "low", "",
      uberAgentBackend.Node.andNode
        [uberAgentBackend.Node.fieldMatch "eventtype"
           (uberAgentBackend.Value.scalar (uberAgentBackend.Scalar.str "q"))],
      false⟩
    (by rfl) (Or.inr rfl) rfl (by rfl)

theorem serialize_loop_eq (level : String) :
    ∀ (rules : List uberAgentBackend.ActivityMonitoringRule) (count : Nat) (out : List String),
      uberAgentBackend.serialize_file_loop level rules count out
        = (count + (rules.filter (fun r =>
              r.sigma_level == level && (uberAgentBackend.ruleStr r).isOk)).length,
           out ++ rules.filterMap (fun r =>
             if r.sigma_level = level then
               (uberAgentBackend.ruleStr r).toOption.map (fun s => s ++ "\n")
             else none)) := by
  intro rules
  induction rules with
  | nil => intro count out; simp [uberAgentBackend.serialize_file_loop]
  | cons r rest ih =>
    intro count out
    by_cases hl : r.sigma_level = level
    · cases hs : uberAgentBackend.ruleStr r with
      | ok s =>
        simp [uberAgentBackend.serialize_file_loop, hl, hs, ih, Except.isOk, Except.toBool,
          Except.toOption, List.filter_cons, List.filterMap_cons]
        omega
      | error e =>
        simp [uberAgentBackend.serialize_file_loop, hl, hs, ih, Except.isOk, Except.toBool,
          Except.toOption, List.filter_cons, List.filterMap_cons]
    · simp [uberAgentBackend.serialize_file_loop, hl, ih, List.filter_cons, List.filterMap_cons]

/-- Claim C3 counterexample: a rule with severity `informational` that
serializes successfully appears in no partition at finalize — only the four
severities critical, high, low, medium get a destination, so the claim's
five-way partition (with every emitted rule in the partition matching its
level) fails for informational rules. -/
theorem claim_c3_counterexample :
    (uberAgentBackend.ruleStr
        ⟨"r", some "Dns.Query", "tag-r", "q", 0, "informational", ""⟩).isOk = true
    ∧ uberAgentBackend.finalize
        [⟨"r", some "Dns.Query", "tag-r", "q", 0, "informational", ""⟩]
      = [("critical", (0, [])), ("high", (0, [])), ("low", (0, [])), ("medium", (0, []))] :=
  ⟨rfl, rfl⟩

/-- Claim C3 (amended): finalize serializes exactly four severity partitions —
critical, high, low, medium, in that order — and each partition holds, in
input order, precisely the accumulated rules of that severity that serialize
successfully, with the partition count equal to that number; informational
rules are never serialized. -/
theorem claim_c3_amended (rules : List uberAgentBackend.ActivityMonitoringRule) :
    (uberAgentBackend.finalize rules).map Prod.fst = ["critical", "high", "low", "medium"]
    ∧ ∀ level, uberAgentBackend.serialize_file rules level
        = ((rules.filter (fun r =>
              r.sigma_level == level && (uberAgentBackend.ruleStr r).isOk)).length,
           rules.filterMap (fun r =>
             if r.sigma_level = level then
               (uberAgentBackend.ruleStr r).toOption.map (fun s => s ++ "\n")
             else none)) := by
  refine ⟨rfl, ?_⟩
  intro level
  unfold uberAgentBackend.serialize_file
  rw [serialize_loop_eq]
  simp

theorem gpInner_length_le (ps : List String) :
    ∀ c, (uberAgentBackend.gpInner ps c).1.length ≤ 11 - c := by
  induction ps with
  | nil => intro c; simp [uberAgentBackend.gpInner]
  | cons p ps ih =>
    intro c
    by_cases h : c > 10
    · simp [uberAgentBackend.gpInner, h]
    · have := ih (c + 1)
      simp only [uberAgentBackend.gpInner, h, if_false, List.length_cons]
      omega

theorem gpInner_counter_eq (ps : List String) :
    ∀ c, (uberAgentBackend.gpInner ps c).2 = c + (uberAgentBackend.gpInner ps c).1.length := by
  induction ps with
  | nil => intro c; simp [uberAgentBackend.gpInner]
  | cons p ps ih =>
    intro c
    by_cases h : c > 10
    · simp [uberAgentBackend.gpInner, h]
    · have := ih (c + 1)
      simp only [uberAgentBackend.gpInner, h, if_false, List.length_cons]
      omega

theorem gpOuter_length_le (et : String) :
    ∀ (t : List (String × List String)) (c : Nat),
      (uberAgentBackend.gpOuter et t c).length ≤ 11 - c := by
  intro t
  induction t with
  | nil => intro c; simp [uberAgentBackend.gpOuter]
  | cons e rest ih =>
    intro c
    obtain ⟨pre, props⟩ := e
    by_cases h : pre.data.isPrefixOf et.data = true
    · have h1 := gpInner_length_le props c
      have h2 := gpInner_counter_eq props c
      have h3 := ih (uberAgentBackend.gpInner props c).2
      simp only [uberAgentBackend.gpOuter, h, if_true, List.length_append]
      omega
    · simp only [uberAgentBackend.gpOuter, h, if_false]
      exact ih c

theorem serialize_skips_bad (level : String) (bad : uberAgentBackend.ActivityMonitoringRule)
    (hbad : (uberAgentBackend.ruleStr bad).isOk = false) :
    ∀ (pre post : List uberAgentBackend.ActivityMonitoringRule) (count : Nat) (out : List String),
      uberAgentBackend.serialize_file_loop level (pre ++ bad :: post) count out
        = uberAgentBackend.serialize_file_loop level (pre ++ post) count out := by
  intro pre
  induction pre with
  | nil =>
    intro post count out
    simp only [List.nil_append]
    by_cases hl : bad.sigma_level = level
    · cases hs : uberAgentBackend.ruleStr bad with
      | ok s => rw [hs] at hbad; simp [Except.toBool, Except.isOk] at hbad
      | error e => simp [uberAgentBackend.serialize_file_loop, hl, hs]
    · simp [uberAgentBackend.serialize_file_loop, hl]
  | cons p pre' ih =>
    intro post count out
    simp only [List.cons_append]
    by_cases hl : p.sigma_level = level
    · cases hs : uberAgentBackend.ruleStr p with
      | ok s => simp [uberAgentBackend.serialize_file_loop, hl, hs, ih]
      | error e => simp [uberAgentBackend.serialize_file_loop, hl, hs, ih]
    · simp [uberAgentBackend.serialize_file_loop, hl, ih]

/-- Claim C9: serializing a rule block fails exactly when a required property
is missing (event type unset, or tag/name/query empty); such a failure skips
only that rule in the batch loop; and a block carries at most ten
`GenericProperty` entries (selected by event-type prefix). -/
theorem claim_c9_malformed_rule :
    (∀ r : uberAgentBackend.ActivityMonitoringRule,
      (uberAgentBackend.ruleStr r).isOk = true
        ↔ (r.event_type ≠ none ∧ r.tag ≠ "" ∧ r.name ≠ "" ∧ r.query ≠ ""))
    ∧ (∀ (pre post : List uberAgentBackend.ActivityMonitoringRule)
          (bad : uberAgentBackend.ActivityMonitoringRule) (level : String),
        (uberAgentBackend.ruleStr bad).isOk = false →
        uberAgentBackend.serialize_file (pre ++ bad :: post) level
          = uberAgentBackend.serialize_file (pre ++ post) level)
    ∧ (∀ et : String, (uberAgentBackend.genericPropertySegs et).length ≤ 10) := by
  refine ⟨?_, ?_, ?_⟩
  · intro r
    obtain ⟨nm, etO, tg, qu, rs, lv, de⟩ := r
    unfold uberAgentBackend.ruleStr uberAgentBackend.ruleSegments
    cases etO with
    | none => simp [Except.map, Except.toBool, Except.isOk]
    | some et =>
      by_cases h1 : tg = "" <;> by_cases h2 : nm = "" <;> by_cases h3 : qu = "" <;>
        simp [h1, h2, h3, Except.map, Except.toBool, Except.isOk]
  · intro pre post bad level hbad
    unfold uberAgentBackend.serialize_file
    exact serialize_skips_bad level bad hbad pre post 0 []
  · intro et
    have := gpOuter_length_le et uberAgentBackend.generic_properties 1
    simpa [uberAgentBackend.genericPropertySegs] using this

/-- Claim C9 witness: a rule with an empty name fails serialization and is
skipped by the batch loop, leaving the rest of the batch unchanged. -/
theorem claim_c9_malformed_rule_witness :
    uberAgentBackend.serialize_file
        ([] ++ (⟨"", some "Dns.Query", "t", "q", 0, "high", ""⟩ :
            uberAgentBackend.ActivityMonitoringRule) ::
          [⟨"n", some "Dns.Query", "t", "q", 0, "high", ""⟩]) "high"
      = uberAgentBackend.serialize_file
          ([] ++ [(⟨"n", some "Dns.Query", "t", "q", 0, "high", ""⟩ :
            uberAgentBackend.ActivityMonitoringRule)]) "high" :=
  claim_c9_malformed_rule.2.1 [] [⟨"n", some "Dns.Query", "t", "q", 0, "high", ""⟩]
    ⟨"", some "Dns.Query", "t", "q", 0, "high", ""⟩ "high" (by rfl)

theorem isPrefixOf_of_append_eq : ∀ (a w l : List Char), a ++ w = l → a.isPrefixOf l = true := by
  intro a
  induction a with
  | nil => intro w l _; simp [List.isPrefixOf]
  | cons x xs ih =>
    intro w l h
    cases l with
    | nil => simp at h
    | cons y ys =>
      rw [List.cons_append] at h
      injection h with h1 h2
      subst h1
      simp [List.isPrefixOf, ih w ys h2]

theorem isPrefixOf_split (y : List Char) : ∀ (a b : List Char),
    a.isPrefixOf (b ++ y) = true → a.isPrefixOf b = true ∨ b.isPrefixOf a = true := by
  intro a
  induction a with
  | nil => intro b _; left; simp [List.isPrefixOf]
  | cons x xs ih =>
    intro b h
    cases b with
    | nil => right; simp [List.isPrefixOf]
    | cons z zs =>
      rw [List.cons_append] at h
      simp only [List.isPrefixOf, Bool.and_eq_true, beq_iff_eq] at h ⊢
      obtain ⟨hxz, hrest⟩ := h
      rcases ih zs hrest with h1 | h1
      · left; exact ⟨hxz, h1⟩
      · right; exact ⟨hxz.symm, h1⟩

theorem strAppend_ne (p x q y : String)
    (h1 : p.data.isPrefixOf q.data = false)
    (h2 : q.data.isPrefixOf p.data = false) :
    p ++ x ≠ q ++ y := by
  intro h
  have hd : p.data ++ x.data = q.data ++ y.data := congrArg String.data h
  have h3 : p.data.isPrefixOf (q.data ++ y.data) = true :=
    isPrefixOf_of_append_eq p.data x.data _ hd
  rcases isPrefixOf_split y.data p.data q.data h3 with h4 | h4
  · simp [h4] at h1
  · simp [h4] at h2

theorem riskseg_ne_one (n : Nat) (p w : String)
    (h1 : ("RiskScore = " : String).data.isPrefixOf p.data = false)
    (h2 : p.data.isPrefixOf ("RiskScore = " : String).data = false) :
    ("RiskScore = " ++ toString n ++ "\n" : String) ≠ p ++ w := by
  rw [String.append_assoc]
  exact strAppend_ne "RiskScore = " (toString n ++ "\n") p w h1 h2

theorem riskseg_ne_lit (n : Nat) (p : String)
    (h1 : ("RiskScore = " : String).data.isPrefixOf p.data = false)
    (h2 : p.data.isPrefixOf ("RiskScore = " : String).data = false) :
    ("RiskScore = " ++ toString n ++ "\n" : String) ≠ p := by
  have h := riskseg_ne_one n p "" h1 h2
  simpa [String.append_empty] using h

theorem riskseg_ne_two (n : Nat) (p x y : String)
    (h1 : ("RiskScore = " : String).data.isPrefixOf p.data = false)
    (h2 : p.data.isPrefixOf ("RiskScore = " : String).data = false) :
    ("RiskScore = " ++ toString n ++ "\n" : String) ≠ p ++ x ++ y := by
  rw [String.append_assoc p]
  exact riskseg_ne_one n p (x ++ y) h1 h2

theorem gpInner_shape : ∀ (ps : List String) (c : Nat) (s : String),
    s ∈ (uberAgentBackend.gpInner ps c).1 → ∃ w, s = "GenericProperty" ++ w := by
  intro ps
  induction ps with
  | nil => intro c s hs; simp [uberAgentBackend.gpInner] at hs
  | cons p ps ih =>
    intro c s hs
    by_cases h : c > 10
    · simp [uberAgentBackend.gpInner, h] at hs
    · simp only [uberAgentBackend.gpInner, h, if_false] at hs
      rcases List.mem_cons.mp hs with h1 | h1
      · exact ⟨toString c ++ (" = " ++ (p ++ "\n")), by rw [h1]; simp [String.append_assoc]⟩
      · exact ih (c + 1) s h1

theorem gpOuter_shape (et : String) : ∀ (t : List (String × List String)) (c : Nat) (s : String),
    s ∈ uberAgentBackend.gpOuter et t c → ∃ w, s = "GenericProperty" ++ w := by
  intro t
  induction t with
  | nil => intro c s hs; simp [uberAgentBackend.gpOuter] at hs
  | cons e rest ih =>
    intro c s hs
    obtain ⟨pre, props⟩ := e
    by_cases h : pre.data.isPrefixOf et.data = true
    · simp only [uberAgentBackend.gpOuter, h, if_true] at hs
      rcases List.mem_append.mp hs with h1 | h1
      · exact gpInner_shape props c s h1
      · exact ih _ s h1
    · simp only [uberAgentBackend.gpOuter, h, if_false] at hs
      exact ih c s hs

/-- Claim C10: the severity-to-risk-score conversion maps critical to 100,
high to 75, medium to 50, low to 25, and everything else (including
informational) to 0; and a serialized block contains the `RiskScore` property
line iff the score is strictly positive. -/
theorem claim_c10_risk_score :
    (uberAgentBackend.convert_sigma_level_to_uberagent_risk_score "critical" = 100
     ∧ uberAgentBackend.convert_sigma_level_to_uberagent_risk_score "high" = 75
     ∧ uberAgentBackend.convert_sigma_level_to_uberagent_risk_score "medium" = 50
     ∧ uberAgentBackend.convert_sigma_level_to_uberagent_risk_score "low" = 25
     ∧ uberAgentBackend.convert_sigma_level_to_uberagent_risk_score "informational" = 0
     ∧ ∀ l : String, l ∉ (["critical", "high", "medium", "low"] : List String) →
         uberAgentBackend.convert_sigma_level_to_uberagent_risk_score l = 0)
    ∧ (∀ (r : uberAgentBackend.ActivityMonitoringRule) (segs : List String),
        uberAgentBackend.ruleSegments r = Except.ok segs →
        ((("RiskScore = " ++ toString r.risk_score ++ "\n") ∈ segs) ↔ 0 < r.risk_score)) := by
  constructor
  · refine ⟨rfl, rfl, rfl, rfl, rfl, ?_⟩
    intro l hl
    simp only [List.mem_cons, List.not_mem_nil, or_false, not_or] at hl
    obtain ⟨e1, e2, e3, e4⟩ := hl
    have b1 : (l == "critical") = false := beq_eq_false_iff_ne.mpr e1
    have b2 : (l == "high") = false := beq_eq_false_iff_ne.mpr e2
    have b3 : (l == "medium") = false := beq_eq_false_iff_ne.mpr e3
    have b4 : (l == "low") = false := beq_eq_false_iff_ne.mpr e4
    simp [uberAgentBackend.convert_sigma_level_to_uberagent_risk_score, List.lookup,
      b1, b2, b3, b4]
  · intro r segs h
    cases het : r.event_type with
    | none => rw [uberAgentBackend.ruleSegments.eq_def, het] at h; simp at h
    | some et =>
      rw [uberAgentBackend.ruleSegments.eq_def, het] at h
      by_cases h1 : r.tag = ""
      · simp [h1] at h
      by_cases h2 : r.name = ""
      · simp [h1, h2] at h
      by_cases h3 : r.query = ""
      · simp [h1, h2, h3] at h
      simp only [h1, h2, h3, if_false, Except.ok.injEq] at h
      subst h
      constructor
      · intro hmem
        by_contra h0
        rcases List.mem_append.mp hmem with hx | hmem
        · exact riskseg_ne_lit r.risk_score _ (by decide) (by decide)
            (List.mem_singleton.mp hx)
        rcases List.mem_append.mp hmem with hx | hmem
        · revert hx
          split
          · intro hx
            obtain ⟨d, _, hd2⟩ := List.mem_map.mp hx
            exact riskseg_ne_two r.risk_score "# " d "\n" (by decide) (by decide) hd2.symm
          · exact List.not_mem_nil _
        rcases List.mem_append.mp hmem with hx | hmem
        · rcases List.mem_cons.mp hx with hx2 | hx
          · exact riskseg_ne_two r.risk_score "RuleName = " r.name "\n"
              (by decide) (by decide) hx2
          rcases List.mem_cons.mp hx with hx2 | hx
          · exact riskseg_ne_two r.risk_score "EventType = " et "\n"
              (by decide) (by decide) hx2
          exact riskseg_ne_two r.risk_score "Tag = " _ "\n" (by decide) (by decide)
            (List.mem_singleton.mp hx)
        rcases List.mem_append.mp hmem with hx | hmem
        · rw [if_neg h0] at hx
          exact List.not_mem_nil _ hx
        rcases List.mem_append.mp hmem with hx | hmem
        · exact riskseg_ne_two r.risk_score "Query = " r.query "\n"
            (by decide) (by decide) (List.mem_singleton.mp hx)
        rcases List.mem_append.mp hmem with hx | hmem
        · revert hx
          split
          · intro hx
            exact riskseg_ne_lit r.risk_score _ (by decide) (by decide)
              (List.mem_singleton.mp hx)
          · exact List.not_mem_nil _
        · obtain ⟨w, hw⟩ :=
            gpOuter_shape et uberAgentBackend.generic_properties 1 _ hmem
          exact riskseg_ne_one r.risk_score "GenericProperty" w (by decide) (by decide) hw
      · intro hpos
        apply List.mem_append.mpr; right
        apply List.mem_append.mpr; right
        apply List.mem_append.mpr; right
        apply List.mem_append.mpr; left
        rw [if_pos hpos]
        exact List.mem_singleton.mpr rfl

/-- Claim C10 witness: a concrete informational rule (risk score 0) whose
serialized block, obtained by evaluation, carries no `RiskScore` line. -/
theorem claim_c10_risk_score_witness :
    ("RiskScore = " ++ toString (0 : Nat) ++ "\n")
      ∉ ["[ActivityMonitoringRule]\n", "RuleName = r\n", "EventType = Dns.Query\n",
         "Tag = t\n", "Query = q\n",
         "GenericProperty1 = Dns.QueryRequest\n", "GenericProperty2 = Dns.QueryResponse\n"] := by
  intro hmem
  have h := (claim_c10_risk_score.2
    ⟨"r", some "Dns.Query", "t", "q", 0, "informational", ""⟩
    ["[ActivityMonitoringRule]\n", "RuleName = r\n", "EventType = Dns.Query\n",
     "Tag = t\n", "Query = q\n",
     "GenericProperty1 = Dns.QueryRequest\n", "GenericProperty2 = Dns.QueryResponse\n"]
    (by rfl)).mp hmem
  exact absurd h (by decide)

theorem escDouble_run_id (g : Char) (hg : g = '*' ∨ g = '?') :
    ∀ (k : Nat) (prev : Option Char),
      uberAgentBackend.escDouble prev (List.replicate k '\\' ++ [g])
        = List.replicate k '\\' ++ [g] := by
  intro k
  induction k with
  | zero =>
    intro prev
    simp only [List.replicate, List.nil_append]
    have hgne : ¬g = '\\' := by rcases hg with h | h <;> simp [h]
    simp [uberAgentBackend.escDouble, hgne]
  | succ k ih =>
    intro prev
    simp only [List.replicate_succ, List.cons_append]
    have hcond : ¬('\\' = '\\' ∧ prev ≠ some '\\'
        ∧ ¬((List.replicate k '\\' ++ [g]).head? = some '\\'
            ∨ (List.replicate k '\\' ++ [g]).head? = some '*'
            ∨ (List.replicate k '\\' ++ [g]).head? = some '?')) := by
      cases k with
      | zero =>
        simp only [List.replicate, List.nil_append, List.head?_cons]
        rcases hg with h | h <;> simp [h]
      | succ k2 =>
        simp [List.replicate_succ, List.head?_cons]
    have hcond2 : ¬(True ∧ prev ≠ some '\\'
        ∧ ¬((List.replicate k '\\' ++ [g]).head? = some '\\'
            ∨ (List.replicate k '\\' ++ [g]).head? = some '*'
            ∨ (List.replicate k '\\' ++ [g]).head? = some '?')) := by
      simpa using hcond
    simp only [uberAgentBackend.escDouble, if_neg hcond2]
    rw [ih (some '\\')]

theorem escBefore_id_of_not_mem (t : Char) :
    ∀ l : List Char, (∀ c ∈ l, c ≠ t) → uberAgentBackend.escBefore t l = l := by
  intro l
  induction l with
  | nil => intro _; rfl
  | cons c cs ih =>
    intro h
    have hc := h c (List.mem_cons_self c cs)
    have hcs : ∀ x ∈ cs, x ≠ t := fun x hx => h x (List.mem_cons_of_mem c hx)
    simp [uberAgentBackend.escBefore, hc, ih hcs]

theorem wildScan_run_parity (g repl : Char) (hg : g ≠ '\\') :
    ∀ (k run : Nat),
      uberAgentBackend.wildScan g repl run (List.replicate k '\\' ++ [g])
        = (if (run + k) % 2 = 0 then (if run + k = 0 then [] else ['\\', '\\']) ++ [repl]
           else List.replicate (run + k) '\\' ++ [g]) := by
  intro k
  induction k with
  | zero =>
    intro run
    simp only [List.replicate, List.nil_append, Nat.add_zero]
    simp [uberAgentBackend.wildScan, hg]
  | succ k ih =>
    intro run
    simp only [List.replicate_succ, List.cons_append]
    have harith : run + 1 + k = run + (k + 1) := by omega
    simp only [uberAgentBackend.wildScan, ih (run + 1), harith]
    simp

theorem wildScan_id_of_not_mem (g repl : Char) :
    ∀ (l : List Char) (run : Nat), g ∉ l →
      uberAgentBackend.wildScan g repl run l = List.replicate run '\\' ++ l := by
  intro l
  induction l with
  | nil => intro run _; simp [uberAgentBackend.wildScan]
  | cons c cs ih =>
    intro run h
    simp only [List.mem_cons, not_or] at h
    obtain ⟨h1, h2⟩ := h
    have hcg : ¬c = g := fun hc => h1 hc.symm
    by_cases hb : c = '\\'
    · subst hb
      have hstep : uberAgentBackend.wildScan g repl run ('\\' :: cs)
          = uberAgentBackend.wildScan g repl (run + 1) cs := by
        simp [uberAgentBackend.wildScan]
      rw [hstep, ih (run + 1) h2, List.replicate_succ']
      simp [List.append_assoc]
    · simp [uberAgentBackend.wildScan, hb, hcg, ih 0 h2]

/-- Claim C4 (amended): in the uberagent backend's `cleanValue` a `*` (resp.
`?`) preceded by `k` backslashes is translated to `%` (resp. `_`) exactly when
`k` is even and the run plus glyph are preserved verbatim when `k` is odd; in
the even case the `\1` replacement re-emits only the last backslash pair, so
an even run of length two or more collapses to a single pair (and an empty
run stays empty).  The qradar backend instead translates every `*` to `%`
unconditionally (see the counterexample for the odd-backslash case) and never
translates `?`. -/
theorem claim_c4_amended :
    (∀ k : Nat,
      uberAgentBackend.cleanValue
          (uberAgentBackend.Scalar.str ⟨List.replicate k '\\' ++ ['*']⟩)
        = ⟨if k % 2 = 0 then (if k = 0 then [] else ['\\', '\\']) ++ ['%']
           else List.replicate k '\\' ++ ['*']⟩
      ∧ uberAgentBackend.cleanValue
          (uberAgentBackend.Scalar.str ⟨List.replicate k '\\' ++ ['?']⟩)
        = ⟨if k % 2 = 0 then (if k = 0 then [] else ['\\', '\\']) ++ ['_']
           else List.replicate k '\\' ++ ['?']⟩)
    ∧ (∀ (key s : String), StrAux.strHasChar s '*' = true →
        QRadarBackend.generateMapItemNodeScalar key (QRadarBackend.Item.str s)
          = QRadarBackend.cleanKey (some key) ++ " ilike "
            ++ QRadarBackend.generateValueNode
                 (QRadarBackend.Item.str (QRadarBackend.starToPercent s))) := by
  constructor
  · intro k
    have hmem : ∀ (g c : Char), c ∈ List.replicate k '\\' ++ [g] → c = '\\' ∨ c = g := by
      intro g c hc
      rcases List.mem_append.mp hc with h | h
      · left; exact List.eq_of_mem_replicate h
      · right; exact List.mem_singleton.mp h
    constructor
    · have hlist : uberAgentBackend.cleanValueL (List.replicate k '\\' ++ ['*'])
          = (if k % 2 = 0 then (if k = 0 then [] else ['\\', '\\']) ++ ['%']
             else List.replicate k '\\' ++ ['*']) := by
        have h9 : '?' ∉ (if k % 2 = 0 then (if k = 0 then [] else ['\\', '\\']) ++ ['%']
            else List.replicate k '\\' ++ ['*']) := by
          by_cases hk : k % 2 = 0
          · by_cases hk0 : k = 0 <;> simp [hk, hk0]
          · simp only [hk, if_false]
            intro hm
            rcases List.mem_append.mp hm with h | h
            · exact absurd (List.eq_of_mem_replicate h) (by decide)
            · exact absurd (List.mem_singleton.mp h) (by decide)
        unfold uberAgentBackend.cleanValueL
        rw [escDouble_run_id '*' (Or.inl rfl) k none,
          escBefore_id_of_not_mem '_' _
            (fun c hc => by rcases hmem '*' c hc with h | h <;> simp [h]),
          escBefore_id_of_not_mem '%' _
            (fun c hc => by rcases hmem '*' c hc with h | h <;> simp [h]),
          escBefore_id_of_not_mem StrAux.dquoteCh _
            (fun c hc => by rcases hmem '*' c hc with h | h <;> simp [h, StrAux.dquoteCh]),
          wildScan_run_parity '*' '%' (by decide) k 0]
        simp only [Nat.zero_add]
        rw [wildScan_id_of_not_mem '?' '_' _ 0 h9]
        simp
      show (⟨uberAgentBackend.cleanValueL (List.replicate k '\\' ++ ['*'])⟩ : String) = _
      rw [hlist]
    · have hlist : uberAgentBackend.cleanValueL (List.replicate k '\\' ++ ['?'])
          = (if k % 2 = 0 then (if k = 0 then [] else ['\\', '\\']) ++ ['_']
             else List.replicate k '\\' ++ ['?']) := by
        have h8 : '*' ∉ List.replicate k '\\' ++ ['?'] := by
          intro hm
          rcases hmem '?' '*' hm with h | h <;> simp at h
        unfold uberAgentBackend.cleanValueL
        rw [escDouble_run_id '?' (Or.inr rfl) k none,
          escBefore_id_of_not_mem '_' _
            (fun c hc => by rcases hmem '?' c hc with h | h <;> simp [h]),
          escBefore_id_of_not_mem '%' _
            (fun c hc => by rcases hmem '?' c hc with h | h <;> simp [h]),
          escBefore_id_of_not_mem StrAux.dquoteCh _
            (fun c hc => by rcases hmem '?' c hc with h | h <;> simp [h, StrAux.dquoteCh]),
          wildScan_id_of_not_mem '*' '%' _ 0 h8]
        simp only [List.replicate, List.nil_append]
        rw [wildScan_run_parity '?' '_' (by decide) k 0]
        simp only [Nat.zero_add]
      show (⟨uberAgentBackend.cleanValueL (List.replicate k '\\' ++ ['?'])⟩ : String) = _
      rw [hlist]
  · intro key s h
    simp only [QRadarBackend.generateMapItemNodeScalar, h, if_true]

/-- Claim C4 amended witness: three backslashes (odd) before `*` leave the
run and glyph untranslated in uberagent's `cleanValue`, four backslashes
(even) collapse to one pair with the glyph translated, and a zero-backslash
`*` in the qradar backend is translated. -/
theorem claim_c4_amended_witness :
    uberAgentBackend.cleanValue
        (uberAgentBackend.Scalar.str ⟨List.replicate 3 '\\' ++ ['*']⟩)
      = ⟨List.replicate 3 '\\' ++ ['*']⟩
    ∧ uberAgentBackend.cleanValue
        (uberAgentBackend.Scalar.str ⟨List.replicate 4 '\\' ++ ['*']⟩)
      = ⟨['\\', '\\', '%']⟩
    ∧ QRadarBackend.generateMapItemNodeScalar "f" (QRadarBackend.Item.str "a*b")
      = "f ilike " ++ String.singleton StrAux.quoteCh ++ "a%b"
          ++ String.singleton StrAux.quoteCh := by
  refine ⟨?_, ?_, ?_⟩
  · have h := (claim_c4_amended.1 3).1
    simpa using h
  · have h := (claim_c4_amended.1 4).1
    simpa using h
  · have h := claim_c4_amended.2 "f" "a*b" (by decide)
    rw [h]
    rfl
